import Mathlib

/-!
Formal model of the `service-vitals` health-monitoring daemon.

Each definition below is a shallow embedding of one function or data type of
the Rust sources (`src/config/types.rs`, `src/config/loader.rs`,
`src/config/manager.rs`, `src/health/checker.rs`, `src/health/scheduler.rs`,
`src/common/status.rs`).  Machine integers (`u16`, `u32`, `u64`, `usize`)
are modelled as `Nat` (no arithmetic in the modelled code can overflow on
the inputs considered), `Instant`/`DateTime` as `Nat` time stamps,
`Duration` as a `Nat` number of seconds or milliseconds as noted, and
`HashMap` as association lists with last-insert-wins lookup, matching the
overwrite semantics of `HashMap::insert`.
-/

namespace ServiceVitals

/-- Health state enumeration from `src/health/result.rs` (`HealthStatus`). -/
inductive HealthStatus where
  | Up
  | Down
  | Unknown
  | Degraded
deriving DecidableEq, Repr

namespace HealthStatus

/-- Embeds `HealthStatus::is_healthy` from `src/health/result.rs`:
only `Up` counts as healthy. -/
def is_healthy : HealthStatus → Bool
  | Up => true
  | _ => false

end HealthStatus

/-- Health probe result from `src/health/result.rs` (`HealthResult`), restricted
to the fields the modelled code reads.  `timestamp` is an abstract time stamp,
`response_time` is in milliseconds. -/
structure HealthResult where
  service_name : String
  service_url : String
  timestamp : Nat
  status : HealthStatus
  status_code : Option Nat
  response_time : Nat
  error_message : Option String
  consecutive_failures : Nat
  method : String
deriving DecidableEq, Repr

/-- Web-server sub-configuration from `src/config/types.rs` (`WebConfig`). -/
structure WebConfig where
  enabled : Bool
  port : Nat
  bind_address : String
  show_problems_only : Bool
  layout_type : String
  refresh_interval_seconds : Nat
deriving DecidableEq, Repr

/-- Global configuration block from `src/config/types.rs` (`GlobalConfig`).
The `headers` HashMap is modelled as an association list. -/
structure GlobalConfig where
  default_feishu_webhook_url : Option String
  message_template : Option String
  check_interval_seconds : Nat
  log_level : String
  request_timeout_seconds : Nat
  max_concurrent_checks : Nat
  retry_attempts : Nat
  retry_delay_seconds : Nat
  headers : List (String × String)
  web : Option WebConfig
deriving DecidableEq, Repr

/-- Per-service configuration from `src/config/types.rs` (`ServiceConfig`).
The JSON `body` is opaque to all modelled code, so it is carried as an
uninterpreted `Option String`; `headers` is an association list. -/
structure ServiceConfig where
  name : String
  url : String
  method : String
  expected_status_codes : List Nat
  feishu_webhook_url : Option String
  failure_threshold : Nat
  check_interval_seconds : Option Nat
  enabled : Bool
  description : Option String
  headers : List (String × String)
  body : Option String
  alert_cooldown_secs : Nat
deriving DecidableEq, Repr

/-- Whole configuration from `src/config/types.rs` (`Config`). -/
structure Config where
  global : GlobalConfig
  services : List ServiceConfig
deriving DecidableEq, Repr

/-- Per-service alert state from `src/health/scheduler.rs`
(`ServiceNotificationState`); instants are `Option Nat` time stamps. -/
structure ServiceNotificationState where
  last_health_status : Option HealthStatus := none
  last_notification_time : Option Nat := none
  consecutive_failures : Nat := 0
  notification_count : Nat := 0
  next_alert_threshold : Nat := 0
  alert_cooldown_until : Option Nat := none
  has_sent_alert : Bool := false
  recovery_cooldown_until : Option Nat := none
  last_recovery_notification_time : Option Nat := none
deriving DecidableEq, Repr

/-- The `Default::default()` value of `ServiceNotificationState`. -/
def ServiceNotificationState.default : ServiceNotificationState := {}

/-- Notification intents recorded by the per-probe handler.  In
`handle_notification_static` the two `debug!("... 等待批量发送")` branches are
the points where the code decides an alert (resp. recovery) notification is
due (incrementing `notification_count` resp. stamping
`last_recovery_notification_time`); a `NotifyMark` records that decision. -/
inductive NotifyMark where
  | alert
  | recovery
deriving DecidableEq, Repr

/-- Embeds `Option::is_none_or` as used on cooldown instants:
`none` passes, `some until_t` passes iff the predicate holds. -/
def isNoneOr (p : Nat → Bool) : Option Nat → Bool
  | none => true
  | some v => p v

/-- Embeds `TaskScheduler::handle_notification_static` from
`src/health/scheduler.rs` (lines 210-278).

Step 1 (recovery): fires only when the result is healthy, failures are
pending **and** `has_sent_alert` is set; a recovery mark is recorded iff the
recovery cooldown (a fifth of `alert_cooldown_secs`) has elapsed, and the
failure counter, alert flag and alert cooldown are reset.

Step 2 (failure): on an unhealthy result the failure counter is incremented;
once it reaches `failure_threshold`, an alert mark is recorded iff
`alert_cooldown_until` is unset or reached, and in that case the cooldown is
re-armed to `now + alert_cooldown_secs`.

Step 3: `last_health_status` is updated.

The Rust function also receives the notifier and the scheduler-status handles
but its body never uses them (both notification branches only log); the
returned list of `NotifyMark`s records the decisions taken. -/
def handle_notification_static (service : ServiceConfig) (result : HealthResult)
    (st : ServiceNotificationState) (now : Nat) :
    ServiceNotificationState × List NotifyMark :=
  let current_status := result.status
  let is_healthy := current_status.is_healthy
  -- step 1: recovery
  let need_recover_notify :=
    is_healthy && decide (st.consecutive_failures > 0) && st.has_sent_alert
  let (st, marks) :=
    if need_recover_notify then
      let recovery_cooldown_secs := service.alert_cooldown_secs / 5
      let can_send_recovery := isNoneOr (fun u => decide (now ≥ u)) st.recovery_cooldown_until
      let (st, marks) :=
        if can_send_recovery then
          ({ st with
              last_recovery_notification_time := some now,
              recovery_cooldown_until := some (now + recovery_cooldown_secs) },
            [NotifyMark.recovery])
        else (st, [])
      ({ st with
          consecutive_failures := 0,
          has_sent_alert := false,
          alert_cooldown_until := none }, marks)
    else (st, [])
  -- step 2: failure
  let (st, marks) :=
    if !is_healthy then
      let st := { st with consecutive_failures := st.consecutive_failures + 1 }
      if st.consecutive_failures ≥ service.failure_threshold then
        let cooldown_secs := service.alert_cooldown_secs
        let can_alert := isNoneOr (fun u => decide (now ≥ u)) st.alert_cooldown_until
        if can_alert then
          ({ st with
              notification_count := st.notification_count + 1,
              last_notification_time := some now,
              has_sent_alert := true,
              alert_cooldown_until := some (now + cooldown_secs) },
            marks ++ [NotifyMark.alert])
        else (st, marks)
      else (st, marks)
    else (st, marks)
  -- step 3: record last health status
  ({ st with last_health_status := some current_status }, marks)

/-- Runs `handle_notification_static` over a sequence of probe results
(probe status together with the `Instant::now()` read for that probe),
collecting the per-probe notification marks, as the per-service task loop in
`start_service_task` does on consecutive ticks. -/
def runProbes (service : ServiceConfig) (st : ServiceNotificationState) :
    List (HealthResult × Nat) → ServiceNotificationState × List (List NotifyMark)
  | [] => (st, [])
  | (r, now) :: rest =>
    let (st', marks) := handle_notification_static service r st now
    let (stFin, rests) := runProbes service st' rest
    (stFin, marks :: rests)

/-- Batch notification kind from `src/health/scheduler.rs`
(`BatchNotificationType`). -/
inductive BatchNotificationType where
  | Alert
  | Recovery
deriving DecidableEq, Repr

/-- Batch queue item from `src/health/scheduler.rs` (`BatchNotificationItem`). -/
structure BatchNotificationItem where
  service : ServiceConfig
  result : HealthResult
  notification_type : BatchNotificationType
  notification_time : Nat
deriving DecidableEq, Repr

/-- Message handed to `NotificationSender::send_message`
(`NotificationMessage` in `src/notification/sender.rs`), restricted to the
fields set by the batch senders. -/
structure NotificationMessage where
  title : String
  service_name : String
  service_url : String
deriving DecidableEq, Repr

/-- Observable state of the probe-result notification pipeline of
`TaskScheduler`: the per-service `notification_states` map (association list,
insert overwrites), the `batch_notifications` queue, and the cumulative list
of messages actually handed to the notifier. -/
structure PipelineState where
  notification_states : List (String × ServiceNotificationState)
  batch_notifications : List BatchNotificationItem
  dispatched : List NotificationMessage
deriving Repr

/-- Map lookup for the `notification_states` HashMap: last insert wins. -/
def statesLookup : List (String × ServiceNotificationState) → String →
    Option ServiceNotificationState
  | [], _ => none
  | (k, v) :: rest, n =>
    match statesLookup rest n with
    | some r => some r
    | none => if k = n then some v else none

/-- Embeds the per-probe notification block of the task loop in
`start_service_task` (`src/health/scheduler.rs`, lines 380-396): look up the
service's `ServiceNotificationState` and run `handle_notification_static` on
it.  The handler body neither calls the notifier nor pushes to the batch
queue (`add_to_batch_queue` has no caller anywhere in the crate), so the
`batch_notifications` and `dispatched` components are untouched. -/
def processProbe (service : ServiceConfig) (result : HealthResult) (now : Nat)
    (ps : PipelineState) : PipelineState :=
  match statesLookup ps.notification_states service.name with
  | none => ps
  | some st =>
    let (st', _marks) := handle_notification_static service result st now
    { ps with notification_states := ps.notification_states ++ [(service.name, st')] }

/-- Embeds one tick of the batch-notification task
(`start_batch_notification_task`, `src/health/scheduler.rs` lines 704-759):
drain the queue; when the drained list is non-empty and a notifier is
configured, send one batch alert message for the alert items and one batch
recovery message for the recovery items (titles as built by
`send_batch_alert` / `send_batch_recovery`). -/
def batchTick (notifierPresent : Bool) (ps : PipelineState) : PipelineState :=
  let notifications := ps.batch_notifications
  let ps := { ps with batch_notifications := [] }
  if notifications.isEmpty then ps
  else if notifierPresent then
    let alerts := notifications.filter
      (fun item => item.notification_type = BatchNotificationType.Alert)
    let recoveries := notifications.filter
      (fun item => item.notification_type ≠ BatchNotificationType.Alert)
    let sentAlerts : List NotificationMessage :=
      if alerts.isEmpty then [] else
        [{ title := "🚨 批量服务告警 - " ++ toString alerts.length ++ " 个服务异常",
           service_name := "batch_alert", service_url := "batch" }]
    let sentRecoveries : List NotificationMessage :=
      if recoveries.isEmpty then [] else
        [{ title := "✅ 批量服务恢复 - " ++ toString recoveries.length ++ " 个服务已恢复",
           service_name := "batch_recovery", service_url := "batch" }]
    { ps with dispatched := ps.dispatched ++ sentAlerts ++ sentRecoveries }
  else ps

/-- Events observable on the probe-result path: a probe completion handled by
the task loop, or a tick of the periodic batch-notification task. -/
inductive PipelineEvent where
  | probe (service : ServiceConfig) (result : HealthResult) (now : Nat)
  | tick (notifierPresent : Bool)

/-- Runs a sequence of pipeline events. -/
def runPipeline (ps : PipelineState) : List PipelineEvent → PipelineState
  | [] => ps
  | PipelineEvent.probe s r now :: rest => runPipeline (processProbe s r now ps) rest
  | PipelineEvent.tick np :: rest => runPipeline (batchTick np ps) rest

/-- Outcome of one `perform_request` call as far as `check_with_timeout` can
observe it: either an error (`ProbeInput`, e.g. an unknown HTTP method) or a
`HealthResult`. -/
abbrev AttemptOutcome := Except String HealthResult

/-- Embeds the retry loop of `HttpHealthChecker::check_with_timeout`
(`src/health/checker.rs`, lines 300-336).  `perform i` is the outcome of
`perform_request` on attempt `i` (an oracle standing for the HTTP call).
The loop runs attempts `0..=retry_attempts`; an `Ok` result is returned at
once if healthy or on the last attempt, an `Err` is returned on the last
attempt; otherwise `last_error` is recorded and the loop sleeps
`retry_delay` before the next attempt.  Returns the final outcome together
with the number of `sleep(retry_delay)` calls executed.  The fuel argument is
`retry_attempts + 1 - attempt`, so the after-loop fallback (fuel 0) is
unreachable; it is embedded nevertheless, mirroring the source. -/
def checkLoop (perform : Nat → AttemptOutcome) (retry_attempts : Nat) :
    Nat → Nat → Option String → AttemptOutcome × Nat
  | 0, _, last_error =>
    (Except.ok
      { service_name := "", service_url := "", timestamp := 0,
        status := HealthStatus.Down, status_code := none, response_time := 0,
        error_message := some (last_error.getD "所有重试都失败"),
        consecutive_failures := 0, method := "" }, 0)
  | fuel + 1, attempt, last_error =>
    match perform attempt with
    | Except.ok result =>
      if result.status.is_healthy || attempt = retry_attempts then
        (Except.ok result, 0)
      else
        let (out, sleeps) := checkLoop perform retry_attempts fuel (attempt + 1)
          result.error_message
        (out, sleeps + 1)
    | Except.error e =>
      if attempt = retry_attempts then (Except.error e, 0)
      else
        let (out, sleeps) := checkLoop perform retry_attempts fuel (attempt + 1)
          (some e)
        (out, sleeps + 1)

/-- Embeds `check_with_timeout`: run the retry loop from attempt 0. -/
def check_with_timeout (perform : Nat → AttemptOutcome) (retry_attempts : Nat) :
    AttemptOutcome × Nat :=
  checkLoop perform retry_attempts (retry_attempts + 1) 0 none

/-- Whether an attempt outcome is an `Ok` result with a healthy status —
the only condition under which the retry loop returns before the last
attempt. -/
def healthyOutcome : AttemptOutcome → Bool
  | Except.ok r => r.status.is_healthy
  | Except.error _ => false

/-- Index of the first attempt in `0..=retry_attempts` whose outcome is a
healthy (`Up`) result, if any. -/
def firstHealthy (perform : Nat → AttemptOutcome) (retry_attempts : Nat) :
    Option Nat :=
  (List.range (retry_attempts + 1)).find? (fun i => healthyOutcome (perform i))

/-- Embeds Rust `str::starts_with` on the model's strings. -/
def strStartsWith (s pre : String) : Bool :=
  pre.toList.isPrefixOf s.toList

/-- Embeds `service.name.trim().is_empty()`: true iff every character is
whitespace (Rust trims whitespace from both ends; a trimmed string is empty
iff the original is all whitespace). -/
def trimIsEmpty (s : String) : Bool :=
  s.toList.all Char.isWhitespace

/-- The `valid_log_levels` array of `validate_config`. -/
def valid_log_levels : List String := ["debug", "info", "warn", "error"]

/-- The `valid_methods` array of `validate_config`. -/
def valid_methods : List String :=
  ["GET", "POST", "PUT", "DELETE", "HEAD", "OPTIONS", "PATCH"]

/-- The `valid_layout_types` array of `validate_config`. -/
def valid_layout_types : List String := ["cards", "table"]

/-- Embeds the `web_config.enabled` block of `validate_config`
(`src/config/types.rs`, lines 147-180). -/
def validateWeb (w : WebConfig) : Except String Unit :=
  if w.enabled then
    if w.port = 0 then
      Except.error ("无效的Web服务器端口: " ++ toString w.port ++ "，端口不能为0")
    else if w.bind_address = "" then
      Except.error "Web服务器绑定地址不能为空"
    else if !valid_layout_types.contains w.layout_type then
      Except.error ("无效的界面布局类型: " ++ w.layout_type ++
        "，支持的类型: [\"cards\", \"table\"]")
    else if w.refresh_interval_seconds = 0 then
      Except.error "Web界面刷新间隔不能为0秒"
    else if w.refresh_interval_seconds > 300 then
      Except.error "Web界面刷新间隔不能超过300秒"
    else Except.ok ()
  else Except.ok ()

/-- Embeds the per-service body of the `for service in &config.services` loop
of `validate_config` (`src/config/types.rs`, lines 187-229). -/
def validateService (s : ServiceConfig) : Except String Unit :=
  if trimIsEmpty s.name then
    Except.error "服务名称不能为空"
  else if !(strStartsWith s.url "http://" || strStartsWith s.url "https://") then
    Except.error ("服务 " ++ s.name ++ " 的URL格式无效")
  else if s.expected_status_codes.isEmpty then
    Except.error ("服务 " ++ s.name ++ " 必须指定期望的状态码")
  else
    match s.expected_status_codes.find? (fun c => !(100 ≤ c && c ≤ 599)) with
    | some code => Except.error ("服务 " ++ s.name ++ " 的状态码 " ++ toString code ++ " 无效")
    | none =>
      if !valid_methods.contains s.method then
        Except.error ("服务 " ++ s.name ++ " 的HTTP方法 " ++ s.method ++
          " 无效，支持的方法: [\"GET\", \"POST\", \"PUT\", \"DELETE\", \"HEAD\", \"OPTIONS\", \"PATCH\"]")
      else if s.failure_threshold = 0 then
        Except.error ("服务 " ++ s.name ++ " 的失败阈值不能为0")
      else
        match s.check_interval_seconds with
        | some interval =>
          if interval = 0 then
            Except.error ("服务 " ++ s.name ++ " 的检测间隔不能为0")
          else Except.ok ()
        | none => Except.ok ()

/-- Runs `validateService` over the service list, stopping at the first
error, as the source loop's early `return Err` does. -/
def validateServices : List ServiceConfig → Except String Unit
  | [] => Except.ok ()
  | s :: rest =>
    match validateService s with
    | Except.ok _ => validateServices rest
    | Except.error e => Except.error e

/-- Embeds `validate_config` from `src/config/types.rs` (lines 123-232):
global scalar checks, log level, optional web block, non-empty service list,
then the per-service checks in order. -/
def validate_config (config : Config) : Except String Unit :=
  if config.global.check_interval_seconds = 0 then
    Except.error "检测间隔不能为0"
  else if config.global.request_timeout_seconds = 0 then
    Except.error "请求超时时间不能为0"
  else if config.global.max_concurrent_checks = 0 then
    Except.error "最大并发检测数不能为0"
  else if !valid_log_levels.contains config.global.log_level then
    Except.error ("无效的日志级别: " ++ config.global.log_level ++
      "，支持的级别: [\"debug\", \"info\", \"warn\", \"error\"]")
  else
    match (match config.global.web with
           | some w => validateWeb w
           | none => Except.ok ()) with
    | Except.error e => Except.error e
    | Except.ok _ =>
      if config.services.isEmpty then
        Except.error "至少需要配置一个服务"
      else validateServices config.services

/-- Modelled from the spec's validation-invariant wording, for comparison
with `validate_config`: the per-service invariants of §3 / §8(3), minus name
uniqueness. -/
def serviceSpecOk (s : ServiceConfig) : Prop :=
  (∃ c ∈ s.name.toList, ¬ c.isWhitespace = true) ∧
  (strStartsWith s.url "http://" = true ∨ strStartsWith s.url "https://" = true) ∧
  s.expected_status_codes ≠ [] ∧
  (∀ c ∈ s.expected_status_codes, 100 ≤ c ∧ c ≤ 599) ∧
  s.method ∈ valid_methods ∧
  s.failure_threshold ≠ 0 ∧
  (∀ i, s.check_interval_seconds = some i → i ≠ 0)

/-- Modelled from the spec's wording for the web sub-config checks. -/
def webSpecOk (w : WebConfig) : Prop :=
  w.enabled = true →
    (w.port ≠ 0 ∧ w.bind_address ≠ "" ∧ w.layout_type ∈ valid_layout_types ∧
      w.refresh_interval_seconds ≠ 0 ∧ w.refresh_interval_seconds ≤ 300)

/-- Modelled from the spec's wording: the whole-config invariants actually
enforced by the validator (name uniqueness is **not** among them). -/
def configSpecOk (c : Config) : Prop :=
  c.global.check_interval_seconds ≠ 0 ∧
  c.global.request_timeout_seconds ≠ 0 ∧
  c.global.max_concurrent_checks ≠ 0 ∧
  c.global.log_level ∈ valid_log_levels ∧
  (∀ w, c.global.web = some w → webSpecOk w) ∧
  c.services ≠ [] ∧
  (∀ s ∈ c.services, serviceSpecOk s)

/-- Last-insert-wins lookup in a `HashMap<String, String>` modelled as an
association list (insertion order, later inserts overwrite). -/
def hmLookup : List (String × String) → String → Option String
  | [], _ => none
  | (k, v) :: rest, n =>
    match hmLookup rest n with
    | some r => some r
    | none => if k = n then some v else none

/-- Embeds `HashMap::eq` (the `PartialEq` used by the derived `ServiceConfig`
and `GlobalConfig` equalities): two header maps are equal iff they agree as
key-value maps. -/
def hmBeq (a b : List (String × String)) : Bool :=
  (a.map Prod.fst ++ b.map Prod.fst).all (fun k => hmLookup a k == hmLookup b k)

/-- Embeds the derived `PartialEq` of `ServiceConfig`: field-wise equality,
with the `headers` HashMap compared as a map.  The opaque JSON `body` is
compared by its model value. -/
def svcBeq (a b : ServiceConfig) : Bool :=
  a.name == b.name && a.url == b.url && a.method == b.method &&
  a.expected_status_codes == b.expected_status_codes &&
  a.feishu_webhook_url == b.feishu_webhook_url &&
  a.failure_threshold == b.failure_threshold &&
  a.check_interval_seconds == b.check_interval_seconds &&
  a.enabled == b.enabled && a.description == b.description &&
  hmBeq a.headers b.headers && a.body == b.body &&
  a.alert_cooldown_secs == b.alert_cooldown_secs

/-- Embeds the derived `PartialEq` of `GlobalConfig`. -/
def globalBeq (a b : GlobalConfig) : Bool :=
  a.default_feishu_webhook_url == b.default_feishu_webhook_url &&
  a.message_template == b.message_template &&
  a.check_interval_seconds == b.check_interval_seconds &&
  a.log_level == b.log_level &&
  a.request_timeout_seconds == b.request_timeout_seconds &&
  a.max_concurrent_checks == b.max_concurrent_checks &&
  a.retry_attempts == b.retry_attempts &&
  a.retry_delay_seconds == b.retry_delay_seconds &&
  hmBeq a.headers b.headers && a.web == b.web

/-- Configuration diff from `src/config/manager.rs` (`ConfigDiff`). -/
inductive ConfigDiff where
  | ServiceAdded (service : ServiceConfig)
  | ServiceRemoved (name : String)
  | ServiceModified (old new : ServiceConfig)
  | GlobalConfigModified
deriving Repr

/-- Lookup of a service by name in a service list, with the last occurrence
winning — the semantics of the `HashMap<String, &ServiceConfig>` that
`calculate_config_diff` builds by inserting every list element in order. -/
def servicesLookup : List ServiceConfig → String → Option ServiceConfig
  | [], _ => none
  | s :: rest, n =>
    match servicesLookup rest n with
    | some r => some r
    | none => if s.name = n then some s else none

/-- Embeds `ConfigManager::calculate_config_diff` from
`src/config/manager.rs` (lines 196-244): a `GlobalConfigModified` entry iff
the global blocks differ by value equality; per distinct service name of the
new config, a `ServiceAdded` (name absent from the old map) or a
`ServiceModified` (present in both with unequal value); per distinct name of
the old config absent from the new map, a `ServiceRemoved`.  The HashMap
iteration order of the source is unspecified; the model iterates names in
deduplicated list order, which the membership theorems do not depend on.
`diffKeyNew` is the added/modified entry produced for one distinct name of
the new config's service map. -/
def diffKeyNew (old_config new_config : Config) (n : String) :
    Option ConfigDiff :=
  match servicesLookup new_config.services n,
        servicesLookup old_config.services n with
  | some ns, some os =>
    if svcBeq os ns then none else some (ConfigDiff.ServiceModified os ns)
  | some ns, none => some (ConfigDiff.ServiceAdded ns)
  | none, _ => none

/-- The removal entry produced by `calculate_config_diff` for one distinct
name of the old config's service map. -/
def diffKeyOld (old_config new_config : Config) (n : String) :
    Option ConfigDiff :=
  let _ := old_config
  if (servicesLookup new_config.services n).isNone then
    some (ConfigDiff.ServiceRemoved n)
  else none

/-- The full diff: the optional global entry, then the added/modified
entries over the new config's distinct names, then the removal entries over
the old config's distinct names. -/
def calculate_config_diff (old_config new_config : Config) : List ConfigDiff :=
  (if globalBeq old_config.global new_config.global then []
   else [ConfigDiff.GlobalConfigModified]) ++
  ((new_config.services.map ServiceConfig.name).dedup.filterMap
    (diffKeyNew old_config new_config)) ++
  ((old_config.services.map ServiceConfig.name).dedup.filterMap
    (diffKeyOld old_config new_config))

/-- The service map transformation denoted by one diff entry:
added/modified names map to the new service, removed names are deleted,
a global-block diff leaves the service map unchanged. -/
def applyDiff (m : String → Option ServiceConfig) :
    ConfigDiff → String → Option ServiceConfig
  | ConfigDiff.ServiceAdded s => fun k => if k = s.name then some s else m k
  | ConfigDiff.ServiceRemoved n => fun k => if k = n then none else m k
  | ConfigDiff.ServiceModified _ s => fun k => if k = s.name then some s else m k
  | ConfigDiff.GlobalConfigModified => m

/-- Applies a diff sequence to a service map, in order. -/
def applyDiffs (m : String → Option ServiceConfig) (ds : List ConfigDiff) :
    String → Option ServiceConfig :=
  ds.foldl applyDiff m

/-- Whether a diff entry concerns the given service name. -/
def touchesName : ConfigDiff → String → Bool
  | ConfigDiff.ServiceAdded s, n => s.name == n
  | ConfigDiff.ServiceRemoved m, n => m == n
  | ConfigDiff.ServiceModified _ s, n => s.name == n
  | ConfigDiff.GlobalConfigModified, _ => false

/-- Value-level equality of optional services, via the source's
`PartialEq` model `svcBeq`. -/
def optionSvcBeq : Option ServiceConfig → Option ServiceConfig → Bool
  | none, none => true
  | some a, some b => svcBeq a b
  | _, _ => false

/-- Character class `[A-Za-z_]` of the env-var regex in
`TomlConfigLoader::substitute_env_vars`. -/
def isEnvNameStart (c : Char) : Bool :=
  ('A' ≤ c && c ≤ 'Z') || ('a' ≤ c && c ≤ 'z') || c = '_'

/-- Character class `[A-Za-z0-9_]` of the env-var regex. -/
def isEnvNameChar (c : Char) : Bool :=
  isEnvNameStart c || ('0' ≤ c && c ≤ '9')

/-- Attempts to read a variable name followed by a closing brace, starting
right after a `"$\x7b"` opener; returns the name and the remaining text. -/
def takeEnvName (l : List Char) : Option (List Char × List Char) :=
  match l with
  | [] => none
  | c :: rest =>
    if isEnvNameStart c then
      match rest.dropWhile isEnvNameChar with
      | '}' :: tail => some (c :: rest.takeWhile isEnvNameChar, tail)
      | _ => none
    else none

/-- Fuel-indexed scanner for the regex `\$\x7b([A-Za-z_][A-Za-z0-9_]*)\x7d`
over the raw text: leftmost, non-overlapping matches in order, as
`Regex::captures_iter` produces them.  Each step consumes at least one
character, so `content.length` fuel always suffices. -/
def scanTokensF : Nat → List Char → List (List Char)
  | 0, _ => []
  | _, [] => []
  | fuel + 1, '$' :: '{' :: rest =>
    match takeEnvName rest with
    | some (name, tail) => name :: scanTokensF fuel tail
    | none => scanTokensF fuel ('{' :: rest)
  | fuel + 1, _ :: rest => scanTokensF fuel rest

/-- The ordered list of `$\x7bNAME\x7d` capture names in the raw text. -/
def scanTokens (content : List Char) : List (List Char) :=
  scanTokensF content.length content

/-- Fuel-indexed embedding of Rust `str::replace`: replace every leftmost,
non-overlapping occurrence of `pat` in `s` by `rep`.  `s.length` fuel always
suffices for a non-empty pattern. -/
def replaceAllF : Nat → List Char → List Char → List Char → List Char
  | 0, s, _, _ => s
  | fuel + 1, s, pat, rep =>
    match s with
    | [] => []
    | c :: rest =>
      if pat ≠ [] ∧ pat.isPrefixOf s then
        rep ++ replaceAllF fuel (s.drop pat.length) pat rep
      else c :: replaceAllF fuel rest pat rep

/-- Embeds `str::replace` (all occurrences). -/
def replaceAll (s pat rep : List Char) : List Char :=
  replaceAllF s.length s pat rep

/-- The literal `$\x7bNAME\x7d` token text for a variable name. -/
def envToken (name : List Char) : List Char :=
  '$' :: '{' :: name ++ ['}']

/-- The capture-processing loop of `substitute_env_vars`: for each capture of
the original text in order, look the variable up in the environment — a
missing variable aborts with an error carrying that variable's name —
otherwise replace every occurrence of the token in the **evolving** result
string with the value. -/
def substGo (env : List (List Char × List Char)) :
    List Char → List (List Char) → Except (List Char) (List Char)
  | result, [] => Except.ok result
  | result, name :: rest =>
    match List.lookup name env with
    | some value => substGo env (replaceAll result (envToken name) value) rest
    | none => Except.error name

/-- Embeds `TomlConfigLoader::substitute_env_vars` from
`src/config/loader.rs` (lines 74-103), with env substitution enabled.  The
process environment is modelled as an association list. -/
def substitute_env_vars (env : List (List Char × List Char))
    (content : List Char) : Except (List Char) (List Char) :=
  substGo env content (scanTokens content)

/-- Embeds the effective-interval computation of
`TaskScheduler::start_service_task` (`src/health/scheduler.rs`, lines
336-340): the per-service override if present, else the global default read
from the shared `GlobalConfig`. -/
def start_service_task_interval (service : ServiceConfig)
    (config : GlobalConfig) : Nat :=
  service.check_interval_seconds.getD config.check_interval_seconds

/-- Embeds the effective-interval computation of
`TaskScheduler::start_new_service_task` (`src/health/scheduler.rs`, lines
600-604), the path taken for services added or modified by a hot-reload
diff: the per-service override if present, else the hard-coded constant 60.
The `_config` parameter of the source function is unused; its own comment
says the default should instead be read from the config
(`// 默认60秒，实际应该从config中读取`). -/
def start_new_service_task_interval (service : ServiceConfig) : Nat :=
  service.check_interval_seconds.getD 60

/-- Per-service status entry from `src/common/status.rs` (`ServiceStatus`). -/
structure ServiceStatus where
  name : String
  url : String
  status : HealthStatus
  last_check : Option Nat
  status_code : Option Nat
  response_time_ms : Option Nat
  consecutive_failures : Nat
  error_message : Option String
  enabled : Bool
deriving DecidableEq, Repr

/-- The `service_status` HashMap of `StatusManager`, as a total lookup
function. -/
def StatusMap := String → Option ServiceStatus

/-- Embeds `HashMap::insert` on the status map. -/
def statusInsert (m : StatusMap) (key : String) (v : ServiceStatus) :
    StatusMap :=
  fun n => if n = key then some v else m n

/-- The fresh `ServiceStatus` built by `StatusManager::update_service_status`
from a probe result; `enabled` is unconditionally `true` (the source comment:
`// 假设运行中的服务都是启用的`). -/
def statusFromResult (result : HealthResult) : ServiceStatus :=
  { name := result.service_name
    url := result.service_url
    status := result.status
    last_check := some result.timestamp
    status_code := result.status_code
    response_time_ms := some result.response_time
    consecutive_failures := result.consecutive_failures
    error_message := result.error_message
    enabled := true }

/-- Embeds `StatusManager::update_service_status` from
`src/common/status.rs` (lines 84-100): build a fresh `ServiceStatus` from
the probe result and insert it, replacing any previous entry for that name. -/
def update_service_status (m : StatusMap) (result : HealthResult) : StatusMap :=
  statusInsert m result.service_name (statusFromResult result)

/-- The fresh initial entry built by `StatusManager::add_service`. -/
def initialServiceStatus (name url : String) (enabled : Bool) : ServiceStatus :=
  { name := name
    url := url
    status := HealthStatus.Unknown
    last_check := none
    status_code := none
    response_time_ms := none
    consecutive_failures := 0
    error_message := none
    enabled := enabled }

/-- Embeds `StatusManager::add_service` from `src/common/status.rs` (lines
102-119): unconditionally insert a fresh initial entry under the name,
overwriting any existing entry. -/
def add_service (m : StatusMap) (name url : String) (enabled : Bool) :
    StatusMap :=
  statusInsert m name (initialServiceStatus name url enabled)

/-! Concrete fixtures used by witnesses and counterexamples. -/

/-- A service with `failure_threshold = 3` and `alert_cooldown_secs = 60`,
as in §8(5) of the spec. -/
def exampleService : ServiceConfig :=
  { name := "s", url := "http://h", method := "GET",
    expected_status_codes := [200], feishu_webhook_url := none,
    failure_threshold := 3, check_interval_seconds := none, enabled := true,
    description := none, headers := [], body := none,
    alert_cooldown_secs := 60 }

/-- A global configuration whose default check interval is 30 s (≠ 60). -/
def exampleGlobal : GlobalConfig :=
  { default_feishu_webhook_url := none, message_template := none,
    check_interval_seconds := 30, log_level := "info",
    request_timeout_seconds := 10, max_concurrent_checks := 50,
    retry_attempts := 3, retry_delay_seconds := 5, headers := [],
    web := none }

/-- A Down probe result caused by a status-code mismatch (HTTP 404 against
expected [200]). -/
def downProbe : HealthResult :=
  { service_name := "s", service_url := "http://h", timestamp := 0,
    status := HealthStatus.Down, status_code := some 404, response_time := 5,
    error_message := some "HTTP 404 Not Found", consecutive_failures := 0,
    method := "GET" }

/-- An Up probe result. -/
def upProbe : HealthResult :=
  { service_name := "s", service_url := "http://h", timestamp := 0,
    status := HealthStatus.Up, status_code := some 200, response_time := 5,
    error_message := none, consecutive_failures := 0, method := "GET" }

/-! Behaviour of `handle_notification_static` on single probes. -/

/-- On a Down probe below the failure threshold, only the failure counter
and the last status change. -/
theorem handle_down_below (service : ServiceConfig) (r : HealthResult)
    (st : ServiceNotificationState) (now : Nat)
    (h : r.status = HealthStatus.Down)
    (hlt : st.consecutive_failures + 1 < service.failure_threshold) :
    handle_notification_static service r st now =
      ({ st with
          consecutive_failures := st.consecutive_failures + 1,
          last_health_status := some HealthStatus.Down }, []) := by
  simp [handle_notification_static, h, HealthStatus.is_healthy, not_le.mpr hlt]

/-- On a Down probe reaching the threshold with the alert cooldown clear,
an alert is marked and the cooldown is re-armed. -/
theorem handle_down_alert (service : ServiceConfig) (r : HealthResult)
    (st : ServiceNotificationState) (now : Nat)
    (h : r.status = HealthStatus.Down)
    (hge : service.failure_threshold ≤ st.consecutive_failures + 1)
    (hcan : isNoneOr (fun u => decide (now ≥ u)) st.alert_cooldown_until = true) :
    handle_notification_static service r st now =
      ({ st with
          consecutive_failures := st.consecutive_failures + 1,
          notification_count := st.notification_count + 1,
          last_notification_time := some now,
          has_sent_alert := true,
          alert_cooldown_until := some (now + service.alert_cooldown_secs),
          last_health_status := some HealthStatus.Down },
        [NotifyMark.alert]) := by
  simp [handle_notification_static, h, HealthStatus.is_healthy, hge, hcan]

/-- On a Down probe past the threshold while the alert cooldown is still
running, no alert is marked and the cooldown instant is left unchanged. -/
theorem handle_down_suppressed (service : ServiceConfig) (r : HealthResult)
    (st : ServiceNotificationState) (now : Nat)
    (h : r.status = HealthStatus.Down)
    (hge : service.failure_threshold ≤ st.consecutive_failures + 1)
    (hcan : isNoneOr (fun u => decide (now ≥ u)) st.alert_cooldown_until = false) :
    handle_notification_static service r st now =
      ({ st with
          consecutive_failures := st.consecutive_failures + 1,
          last_health_status := some HealthStatus.Down }, []) := by
  simp [handle_notification_static, h, HealthStatus.is_healthy, hge, hcan]

/-- On an Up probe with pending failures and the alert flag set, the
failure counter, alert flag and alert cooldown are reset; a recovery is
marked iff the recovery cooldown has elapsed. -/
theorem handle_up_recover (service : ServiceConfig) (r : HealthResult)
    (st : ServiceNotificationState) (now : Nat)
    (h : r.status = HealthStatus.Up)
    (hpos : 0 < st.consecutive_failures)
    (hflag : st.has_sent_alert = true) :
    handle_notification_static service r st now =
      (if isNoneOr (fun u => decide (now ≥ u)) st.recovery_cooldown_until then
        ({ st with
            last_recovery_notification_time := some now,
            recovery_cooldown_until := some (now + service.alert_cooldown_secs / 5),
            consecutive_failures := 0, has_sent_alert := false,
            alert_cooldown_until := none,
            last_health_status := some HealthStatus.Up }, [NotifyMark.recovery])
      else
        ({ st with
            consecutive_failures := 0, has_sent_alert := false,
            alert_cooldown_until := none,
            last_health_status := some HealthStatus.Up }, [])) := by
  simp only [handle_notification_static, h, HealthStatus.is_healthy, hflag]
  simp [hpos]
  split <;> simp

/-- On an Up probe with the alert flag clear, nothing but the last status
changes — in particular pending failures are **not** reset. -/
theorem handle_up_no_flag (service : ServiceConfig) (r : HealthResult)
    (st : ServiceNotificationState) (now : Nat)
    (h : r.status = HealthStatus.Up)
    (hflag : st.has_sent_alert = false) :
    handle_notification_static service r st now =
      ({ st with
          last_health_status := some HealthStatus.Up }, []) := by
  simp [handle_notification_static, h, HealthStatus.is_healthy, hflag]

/-- C1: with `failure_threshold = 3` and `alert_cooldown_secs = 60`,
starting from the default alert state, three consecutive Down probes mark
exactly one alert, on the third probe; a fourth Down probe within the
cooldown window marks nothing; a fifth Down probe at or after the cooldown
deadline marks an alert again and advances the cooldown deadline
(`t3 + 60 < t5 + 60`). -/
theorem C1_first_failure_then_cooldown (svc : ServiceConfig)
    (r1 r2 r3 r4 r5 : HealthResult) (t1 t2 t3 t4 t5 : Nat)
    (hth : svc.failure_threshold = 3) (hcd : svc.alert_cooldown_secs = 60)
    (h1 : r1.status = HealthStatus.Down) (h2 : r2.status = HealthStatus.Down)
    (h3 : r3.status = HealthStatus.Down) (h4 : r4.status = HealthStatus.Down)
    (h5 : r5.status = HealthStatus.Down)
    (h4lt : t4 < t3 + 60) (h5ge : t3 + 60 ≤ t5) :
    (runProbes svc ServiceNotificationState.default
        [(r1, t1), (r2, t2), (r3, t3), (r4, t4), (r5, t5)]).2
      = [[], [], [NotifyMark.alert], [], [NotifyMark.alert]] ∧
    (runProbes svc ServiceNotificationState.default
        [(r1, t1), (r2, t2), (r3, t3), (r4, t4), (r5, t5)]).1.alert_cooldown_until
      = some (t5 + 60) ∧
    t3 + 60 < t5 + 60 := by
  have e1 : handle_notification_static svc r1 ServiceNotificationState.default t1 =
      ({ last_health_status := some HealthStatus.Down, last_notification_time := none,
          consecutive_failures := 1, notification_count := 0, next_alert_threshold := 0,
          alert_cooldown_until := none, has_sent_alert := false,
          recovery_cooldown_until := none, last_recovery_notification_time := none }, []) := by
    rw [handle_down_below svc r1 ServiceNotificationState.default t1 h1
      (by simp [ServiceNotificationState.default, hth])]
    rfl
  have e2 : handle_notification_static svc r2
      { last_health_status := some HealthStatus.Down, last_notification_time := none,
        consecutive_failures := 1, notification_count := 0, next_alert_threshold := 0,
        alert_cooldown_until := none, has_sent_alert := false,
        recovery_cooldown_until := none, last_recovery_notification_time := none } t2 =
      ({ last_health_status := some HealthStatus.Down, last_notification_time := none,
          consecutive_failures := 2, notification_count := 0, next_alert_threshold := 0,
          alert_cooldown_until := none, has_sent_alert := false,
          recovery_cooldown_until := none, last_recovery_notification_time := none }, []) := by
    rw [handle_down_below svc r2 _ t2 h2 (by simp [hth])]
  have e3 : handle_notification_static svc r3
      { last_health_status := some HealthStatus.Down, last_notification_time := none,
        consecutive_failures := 2, notification_count := 0, next_alert_threshold := 0,
        alert_cooldown_until := none, has_sent_alert := false,
        recovery_cooldown_until := none, last_recovery_notification_time := none } t3 =
      ({ last_health_status := some HealthStatus.Down, last_notification_time := some t3,
          consecutive_failures := 3, notification_count := 1, next_alert_threshold := 0,
          alert_cooldown_until := some (t3 + 60), has_sent_alert := true,
          recovery_cooldown_until := none, last_recovery_notification_time := none },
        [NotifyMark.alert]) := by
    rw [handle_down_alert svc r3 _ t3 h3 (by simp [hth]) (by simp [isNoneOr])]
    rw [hcd]
  have e4 : handle_notification_static svc r4
      { last_health_status := some HealthStatus.Down, last_notification_time := some t3,
        consecutive_failures := 3, notification_count := 1, next_alert_threshold := 0,
        alert_cooldown_until := some (t3 + 60), has_sent_alert := true,
        recovery_cooldown_until := none, last_recovery_notification_time := none } t4 =
      ({ last_health_status := some HealthStatus.Down, last_notification_time := some t3,
          consecutive_failures := 4, notification_count := 1, next_alert_threshold := 0,
          alert_cooldown_until := some (t3 + 60), has_sent_alert := true,
          recovery_cooldown_until := none, last_recovery_notification_time := none }, []) := by
    rw [handle_down_suppressed svc r4 _ t4 h4 (by simp [hth])
      (by simp only [isNoneOr, decide_eq_false_iff_not]; omega)]
  have e5 : handle_notification_static svc r5
      { last_health_status := some HealthStatus.Down, last_notification_time := some t3,
        consecutive_failures := 4, notification_count := 1, next_alert_threshold := 0,
        alert_cooldown_until := some (t3 + 60), has_sent_alert := true,
        recovery_cooldown_until := none, last_recovery_notification_time := none } t5 =
      ({ last_health_status := some HealthStatus.Down, last_notification_time := some t5,
          consecutive_failures := 5, notification_count := 2, next_alert_threshold := 0,
          alert_cooldown_until := some (t5 + 60), has_sent_alert := true,
          recovery_cooldown_until := none, last_recovery_notification_time := none },
        [NotifyMark.alert]) := by
    rw [handle_down_alert svc r5 _ t5 h5 (by simp [hth])
      (by simp only [isNoneOr, decide_eq_true_eq]; omega)]
    rw [hcd]
  refine ⟨?_, ?_, by omega⟩ <;>
    simp only [runProbes, e1, e2, e3, e4, e5]

/-- C1 witness: the theorem instantiated at probe instants 0,1,2,3,62. -/
theorem C1_witness :
    (runProbes exampleService ServiceNotificationState.default
        [(downProbe, 0), (downProbe, 1), (downProbe, 2), (downProbe, 3),
          (downProbe, 62)]).2
      = [[], [], [NotifyMark.alert], [], [NotifyMark.alert]] ∧
    (runProbes exampleService ServiceNotificationState.default
        [(downProbe, 0), (downProbe, 1), (downProbe, 2), (downProbe, 3),
          (downProbe, 62)]).1.alert_cooldown_until = some (62 + 60) ∧
    2 + 60 < 62 + 60 :=
  C1_first_failure_then_cooldown exampleService downProbe downProbe downProbe
    downProbe downProbe 0 1 2 3 62 rfl rfl rfl rfl rfl rfl rfl
    (by decide) (by decide)

/-- An alert state with one pending failure but no alert sent yet. -/
def pendingNoAlertState : ServiceNotificationState :=
  { consecutive_failures := 1 }

/-- C2 counterexample: an Up probe processed while `consecutive_failures = 1`
but with no alert previously sent (`has_sent_alert = false`) marks **no**
recovery and leaves `consecutive_failures` at 1 — the claim demands a
Recovery emission and a reset to 0 regardless of whether an alert was sent. -/
theorem C2_counterexample :
    (handle_notification_static exampleService upProbe pendingNoAlertState 5).2
      = [] ∧
    (handle_notification_static exampleService upProbe
        pendingNoAlertState 5).1.consecutive_failures = 1 := by
  decide

/-- C2 (amended): on an Up probe with pending failures, the handler resets
`consecutive_failures`, `has_sent_alert` and `alert_cooldown_until` and marks
a recovery (subject to the recovery cooldown) **only when** `has_sent_alert`
is set; when it is not, the state is left unchanged apart from
`last_health_status`, and nothing is marked. -/
theorem C2_recovery_requires_alert_flag (service : ServiceConfig)
    (r : HealthResult) (st : ServiceNotificationState) (now : Nat)
    (h : r.status = HealthStatus.Up) (hpos : 0 < st.consecutive_failures) :
    (st.has_sent_alert = true →
      (handle_notification_static service r st now).1.consecutive_failures = 0 ∧
      (handle_notification_static service r st now).1.has_sent_alert = false ∧
      (handle_notification_static service r st now).1.alert_cooldown_until = none ∧
      (handle_notification_static service r st now).2 =
        (if isNoneOr (fun u => decide (now ≥ u)) st.recovery_cooldown_until then
          [NotifyMark.recovery] else [])) ∧
    (st.has_sent_alert = false →
      (handle_notification_static service r st now).1 =
        { st with last_health_status := some HealthStatus.Up } ∧
      (handle_notification_static service r st now).2 = []) := by
  constructor
  · intro hflag
    rw [handle_up_recover service r st now h hpos hflag]
    split <;> simp
  · intro hflag
    rw [handle_up_no_flag service r st now h hflag]
    exact ⟨rfl, rfl⟩

/-- An alert state after an alert was sent: two pending failures, alert flag
set, alert cooldown armed. -/
def alertSentState : ServiceNotificationState :=
  { consecutive_failures := 2, notification_count := 1,
    last_notification_time := some 1, has_sent_alert := true,
    alert_cooldown_until := some 61 }

/-- C2 witness: the amended theorem at `alertSentState` with an Up probe at
instant 7 — the recovery is marked and the failure counter, alert flag and
alert cooldown are reset. -/
theorem C2_witness :
    (handle_notification_static exampleService upProbe alertSentState 7).1.consecutive_failures = 0 ∧
    (handle_notification_static exampleService upProbe alertSentState 7).1.has_sent_alert = false ∧
    (handle_notification_static exampleService upProbe alertSentState 7).1.alert_cooldown_until = none ∧
    (handle_notification_static exampleService upProbe alertSentState 7).2 =
      (if isNoneOr (fun u => decide (7 ≥ u)) alertSentState.recovery_cooldown_until then
        [NotifyMark.recovery] else []) :=
  (C2_recovery_requires_alert_flag exampleService upProbe alertSentState 7
    rfl (by decide)).1 rfl

/-- C3: processing a probe result through the per-probe notification handler
never enqueues into the batch queue and never dispatches to the notifier
(the handler only rewrites the service's `ServiceNotificationState` entry),
and — since nothing else enqueues (`add_to_batch_queue` has no caller) — the
periodic batch task always drains an empty queue, so across any sequence of
probe handlings and batch ticks no message is ever dispatched. -/
theorem C3_probe_path_dispatches_nothing :
    (∀ (ps : PipelineState) (s : ServiceConfig) (r : HealthResult) (now : Nat),
      (processProbe s r now ps).batch_notifications = ps.batch_notifications ∧
      (processProbe s r now ps).dispatched = ps.dispatched) ∧
    (∀ (states0 : List (String × ServiceNotificationState))
        (events : List PipelineEvent),
      (runPipeline ⟨states0, [], []⟩ events).batch_notifications = [] ∧
      (runPipeline ⟨states0, [], []⟩ events).dispatched = []) := by
  have hframe : ∀ (ps : PipelineState) (s : ServiceConfig) (r : HealthResult)
      (now : Nat),
      (processProbe s r now ps).batch_notifications = ps.batch_notifications ∧
      (processProbe s r now ps).dispatched = ps.dispatched := by
    intro ps s r now
    unfold processProbe
    cases statesLookup ps.notification_states s.name <;> simp
  refine ⟨hframe, ?_⟩
  have key : ∀ (events : List PipelineEvent) (ps : PipelineState),
      ps.batch_notifications = [] → ps.dispatched = [] →
      (runPipeline ps events).batch_notifications = [] ∧
      (runPipeline ps events).dispatched = [] := by
    intro events
    induction events with
    | nil => intro ps h1 h2; exact ⟨h1, h2⟩
    | cons e rest ih =>
      intro ps h1 h2
      cases e with
      | probe s r now =>
        have hf := hframe ps s r now
        exact ih _ (hf.1.trans h1) (hf.2.trans h2)
      | tick np =>
        have : batchTick np ps = { ps with batch_notifications := [] } := by
          unfold batchTick
          simp [h1]
        rw [runPipeline, this]
        exact ih _ rfl h2
  intro states0 events
  exact key events ⟨states0, [], []⟩ rfl rfl

/-- C8: for a hot-reload-added service with no per-service interval override,
`start_new_service_task` hard-codes a 60 s interval instead of reading the
global default (here 30 s) that `start_service_task` would use — the source's
own comment says the value should be read from the config. -/
theorem C8_hot_reload_interval_bug :
    start_new_service_task_interval exampleService = 60 ∧
    start_service_task_interval exampleService exampleGlobal = 30 ∧
    (60 : Nat) ≠ 30 := by
  decide

/-- The status-map entry for service `"s"` after an Up probe has been
recorded over a freshly added registration. -/
def probedMap : StatusMap :=
  update_service_status (add_service (fun _ => none) "s" "http://h" true) upProbe

/-- C9 counterexample: re-adding the already-registered service `"s"`
overwrites its probed entry (status Up, a recorded check time, a status
code and a response time) with a fresh initial entry (status Unknown,
everything cleared) — the claim demands the existing entry be preserved. -/
theorem C9_counterexample :
    probedMap "s" = some (statusFromResult upProbe) ∧
    add_service probedMap "s" "http://h" true "s"
      = some (initialServiceStatus "s" "http://h" true) ∧
    initialServiceStatus "s" "http://h" true ≠ statusFromResult upProbe := by
  refine ⟨rfl, rfl, ?_⟩
  decide

/-- C9 (amended): `add_service` always inserts a fresh initial entry
(status Unknown, no check data, `enabled` as given) under the name,
overwriting any existing entry and leaving other names untouched; repeating
the call with the same arguments is idempotent. -/
theorem C9_add_service_overwrites :
    ∀ (m : StatusMap) (name url : String) (en : Bool),
      (∀ k, add_service m name url en k =
        if k = name then some (initialServiceStatus name url en) else m k) ∧
      add_service (add_service m name url en) name url en
        = add_service m name url en := by
  intro m name url en
  constructor
  · intro k
    rfl
  · funext k
    unfold add_service statusInsert
    split <;> rfl

/-- C10: `update_service_status` replaces the whole map entry for the
result's service name with a status built from the result alone — its
`enabled` field unconditionally `true` — leaves other names untouched, and
the new entry is independent of whatever entry (if any) was there before;
in particular a service registered with `enabled = false` is marked enabled
by its first probe result. -/
theorem C10_update_replaces_entry :
    ∀ (m : StatusMap) (result : HealthResult),
      (∀ k, update_service_status m result k =
        if k = result.service_name then some (statusFromResult result) else m k) ∧
      (statusFromResult result).enabled = true ∧
      (∀ m' : StatusMap,
        update_service_status m result result.service_name
          = update_service_status m' result result.service_name) ∧
      (∀ url : String,
        update_service_status (add_service m result.service_name url false)
            result result.service_name = some (statusFromResult result)) := by
  intro m result
  refine ⟨fun k => rfl, rfl, fun m' => ?_, fun url => ?_⟩ <;>
    (unfold update_service_status statusInsert; simp)

/-- Characterization of the retry loop: starting at `attempt` with
`attempt + fuel = retry_attempts + 1`, the loop returns the outcome of the
first healthy attempt at or after `attempt` (sleeping once per preceding
attempt), or the outcome of the last attempt when none is healthy. -/
theorem checkLoop_eq (perform : Nat → AttemptOutcome) (N : Nat) :
    ∀ (fuel attempt : Nat) (lastErr : Option String),
      attempt + fuel = N + 1 → 1 ≤ fuel →
      checkLoop perform N fuel attempt lastErr =
        (match (List.range' attempt fuel).find?
            (fun i => healthyOutcome (perform i)) with
         | some k => (perform k, k - attempt)
         | none => (perform N, N - attempt)) := by
  intro fuel
  induction fuel with
  | zero => intro attempt lastErr _ hf; omega
  | succ f ih =>
    intro attempt lastErr hsum _
    have hattempt : attempt + f = N := by omega
    rw [List.range'_succ]
    cases hp : perform attempt with
    | ok r =>
      by_cases hh : r.status.is_healthy = true
      · simp [checkLoop, hp, hh, healthyOutcome, List.find?_cons]
      · by_cases hlast : attempt = N
        · have hf0 : f = 0 := by omega
          subst hf0
          subst hlast
          simp [checkLoop, hp, hh, healthyOutcome, List.find?_cons]
        · have hf1 : 1 ≤ f := by omega
          have hih := ih (attempt + 1) r.error_message (by omega) hf1
          have hout : healthyOutcome (perform attempt) = false := by
            rw [hp]; simpa [healthyOutcome] using hh
          simp only [checkLoop, hp, hh, hlast, if_false, Bool.false_or,
            decide_eq_true_eq, hih]
          simp only [List.find?_cons, hout]
          cases hfind : (List.range' (attempt + 1) f).find?
              (fun i => healthyOutcome (perform i)) with
          | some k =>
            have hk : attempt + 1 ≤ k :=
              (List.mem_range'_1.mp (List.mem_of_find?_eq_some hfind)).1
            dsimp only
            simp only [Prod.mk.injEq]
            exact ⟨trivial, by omega⟩
          | none =>
            dsimp only
            simp only [Prod.mk.injEq]
            exact ⟨trivial, by omega⟩
    | error e =>
      by_cases hlast : attempt = N
      · have hf0 : f = 0 := by omega
        subst hf0
        subst hlast
        simp [checkLoop, hp, healthyOutcome, List.find?_cons]
      · have hf1 : 1 ≤ f := by omega
        have hih := ih (attempt + 1) (some e) (by omega) hf1
        have hout : healthyOutcome (perform attempt) = false := by
          rw [hp]; rfl
        simp only [checkLoop, hp, hlast, if_false, hih]
        simp only [List.find?_cons, hout]
        cases hfind : (List.range' (attempt + 1) f).find?
            (fun i => healthyOutcome (perform i)) with
        | some k =>
          have hk : attempt + 1 ≤ k :=
            (List.mem_range'_1.mp (List.mem_of_find?_eq_some hfind)).1
          dsimp only
          simp only [Prod.mk.injEq]
          exact ⟨trivial, by omega⟩
        | none =>
          dsimp only
          simp only [Prod.mk.injEq]
          exact ⟨trivial, by omega⟩

/-- C4 (amended): `check_with_timeout` retries **any** non-healthy outcome —
status-code-mismatch Down results included — sleeping `retry_delay` once
between consecutive attempts: it returns the outcome of the first healthy
attempt (having slept once per preceding attempt) or, when no attempt in
`0..=retry_attempts` is healthy, the outcome of the final attempt. -/
theorem C4_all_down_results_retried (perform : Nat → AttemptOutcome)
    (retry_attempts : Nat) :
    check_with_timeout perform retry_attempts =
      (match firstHealthy perform retry_attempts with
       | some k => (perform k, k)
       | none => (perform retry_attempts, retry_attempts)) := by
  unfold check_with_timeout firstHealthy
  rw [checkLoop_eq perform retry_attempts (retry_attempts + 1) 0 none
    (by omega) (by omega)]
  rw [List.range_eq_range']
  cases (List.range' 0 (retry_attempts + 1)).find?
      (fun i => healthyOutcome (perform i)) <;> simp

/-- Oracle for the C4 counterexample: attempt 0 yields a Down result caused
by a status-code mismatch (HTTP 404 against expected `[200]` — the service
responded), attempt 1 yields an Up result. -/
def mismatchThenUp : Nat → AttemptOutcome := fun i =>
  if i = 0 then Except.ok downProbe else Except.ok upProbe

/-- C4 counterexample: with `retry_attempts = 1`, a first attempt returning
a status-code-mismatch Down is **not** returned immediately: the loop sleeps
once and returns the Up result of the retry, contradicting the claim that
status-code mismatches are never retried. -/
theorem C4_counterexample :
    check_with_timeout mismatchThenUp 1 = (Except.ok upProbe, 1) ∧
    downProbe.status = HealthStatus.Down ∧
    downProbe.status_code = some 404 ∧
    upProbe.status ≠ HealthStatus.Down := by
  exact ⟨rfl, rfl, rfl, by decide⟩

/-- Error characterization of the capture-processing loop: it fails with
`name` iff `name` is the first token in the list whose variable is unset. -/
theorem substGo_error_iff (env : List (List Char × List Char)) :
    ∀ (tokens : List (List Char)) (result : List Char) (name : List Char),
      substGo env result tokens = Except.error name ↔
        tokens.find? (fun nm => (List.lookup nm env).isNone) = some name := by
  intro tokens
  induction tokens with
  | nil => intro result name; simp [substGo]
  | cons t rest ih =>
    intro result name
    cases hl : List.lookup t env with
    | some v =>
      rw [substGo, hl]
      rw [ih]
      rw [List.find?_cons]
      simp [hl]
    | none =>
      rw [substGo, hl]
      rw [List.find?_cons]
      simp [hl, eq_comm]

/-- The loop's output depends on the environment only at the token names it
processes. -/
theorem substGo_env_irrelevant (env env' : List (List Char × List Char)) :
    ∀ (tokens : List (List Char)) (result : List Char),
      (∀ nm ∈ tokens, List.lookup nm env = List.lookup nm env') →
      substGo env result tokens = substGo env' result tokens := by
  intro tokens
  induction tokens with
  | nil => intro result _; rfl
  | cons t rest ih =>
    intro result h
    have ht := h t (List.mem_cons_self t rest)
    rw [substGo, substGo, ← ht]
    cases List.lookup t env with
    | some v => exact ih _ (fun nm hm => h nm (List.mem_cons_of_mem t hm))
    | none => rfl

/-- C7 (amended): environment substitution (a) fails with the name of the
first capture of the original text whose variable is unset — never
substituting silently; (b) succeeds whenever every captured variable is set;
and (c) never consults a variable that is not named by a `$\x7bNAME\x7d`
token of the **original** text.  (A token merely introduced by a substituted
value is therefore never looked up on its own — but, as
`C7_counterexample` shows, it **is** rewritten when the same variable also
occurs as a token of the original text, because each replacement is global
over the evolving string.) -/
theorem C7_substitution_properties :
    (∀ (env : List (List Char × List Char)) (content name : List Char),
      substitute_env_vars env content = Except.error name ↔
        (scanTokens content).find?
          (fun nm => (List.lookup nm env).isNone) = some name) ∧
    (∀ (env : List (List Char × List Char)) (content : List Char),
      (∀ nm ∈ scanTokens content, (List.lookup nm env).isSome) →
      ∃ out, substitute_env_vars env content = Except.ok out) ∧
    (∀ (env env' : List (List Char × List Char)) (content : List Char),
      (∀ nm ∈ scanTokens content, List.lookup nm env = List.lookup nm env') →
      substitute_env_vars env content = substitute_env_vars env' content) := by
  refine ⟨fun env content name => substGo_error_iff env _ _ _, ?_, ?_⟩
  · intro env content hall
    cases hout : substitute_env_vars env content with
    | ok out => exact ⟨out, rfl⟩
    | error name =>
      exfalso
      have hfind := (substGo_error_iff env (scanTokens content) content name).mp hout
      have hmem := List.mem_of_find?_eq_some hfind
      have hpred := List.find?_some hfind
      have := hall name hmem
      simp only [Option.isNone_iff_eq_none, decide_eq_true_eq] at hpred
      rw [hpred] at this
      simp at this
  · intro env env' content h
    exact substGo_env_irrelevant env env' (scanTokens content) content h

/-- Environment for the C7 counterexample: `A` expands to the literal text
`$\x7bB\x7d`, and `B` expands to `x`. -/
def envAB : List (List Char × List Char) :=
  [(['A'], ['$', '{', 'B', '}']), (['B'], ['x'])]

/-- C7 counterexample: on the raw text `$\x7bA\x7d-$\x7bB\x7d` with `A` set
to the literal `$\x7bB\x7d`, the token introduced by substituting `A` **is**
expanded by the later global replacement of `B`'s token, yielding `x-x`;
the claim's no-recursion clause requires the introduced token to survive,
i.e. the result `$\x7bB\x7d-x`. -/
theorem C7_counterexample :
    substitute_env_vars envAB
        ['$', '{', 'A', '}', '-', '$', '{', 'B', '}'] = Except.ok ['x', '-', 'x'] ∧
    (['x', '-', 'x'] : List Char) ≠ ['$', '{', 'B', '}', '-', 'x'] :=
  ⟨rfl, by decide⟩

/-- C7 witness: with an empty environment, loading a text containing
`$\x7bHOST\x7d` fails with an error naming `HOST`; and extending the
environment with an unreferenced variable does not change the result. -/
theorem C7_witness :
    substitute_env_vars [] ['$', '{', 'H', 'O', 'S', 'T', '}']
      = Except.error ['H', 'O', 'S', 'T'] ∧
    substitute_env_vars envAB ['$', '{', 'A', '}']
      = substitute_env_vars (envAB ++ [(['C'], ['y'])]) ['$', '{', 'A', '}'] := by
  constructor
  · exact (C7_substitution_properties.1 [] _ _).mpr (by decide)
  · exact C7_substitution_properties.2.2 envAB _ _ (by decide)

/-- The web-block validation succeeds exactly on web configs meeting the
spec's web invariants. -/
theorem validateWeb_ok_iff (w : WebConfig) :
    validateWeb w = Except.ok () ↔ webSpecOk w := by
  unfold validateWeb webSpecOk
  split_ifs with h1 h2 h3 h4 h5 h6
  · exact iff_of_false (by simp) (fun h => (h h1).1 h2)
  · exact iff_of_false (by simp) (fun h => (h h1).2.1 h3)
  · refine iff_of_false (by simp) (fun h => ?_)
    have hmem := (h h1).2.2.1
    simp only [Bool.not_eq_true'] at h4
    rw [show valid_layout_types.contains w.layout_type = true from
      List.elem_iff.mpr hmem] at h4
    cases h4
  · exact iff_of_false (by simp) (fun h => (h h1).2.2.2.1 h5)
  · exact iff_of_false (by simp)
      (fun h => absurd (h h1).2.2.2.2 (by omega))
  · refine iff_of_true rfl (fun _ => ⟨h2, h3, ?_, h5, by omega⟩)
    simp only [Bool.not_eq_true'] at h4
    exact List.elem_iff.mp (by simpa using h4)
  · exact iff_of_true rfl (fun h => absurd h h1)

/-- The per-service validation succeeds exactly on services meeting the
spec's per-service invariants. -/
theorem validateService_ok_iff (s : ServiceConfig) :
    validateService s = Except.ok () ↔ serviceSpecOk s := by
  unfold validateService serviceSpecOk
  by_cases h1 : trimIsEmpty s.name = true
  · rw [if_pos h1]
    refine iff_of_false (by simp) ?_
    rintro ⟨⟨c, hc, hw⟩, -⟩
    simp only [trimIsEmpty, List.all_eq_true] at h1
    exact hw (h1 c hc)
  · rw [if_neg h1]
    have hname : ∃ c ∈ s.name.toList, ¬c.isWhitespace = true := by
      simp only [trimIsEmpty, List.all_eq_true] at h1
      push_neg at h1
      exact h1
    by_cases h2 : (!(strStartsWith s.url "http://" ||
        strStartsWith s.url "https://")) = true
    · rw [if_pos h2]
      refine iff_of_false (by simp) ?_
      rintro ⟨-, hurl, -⟩
      simp only [Bool.not_eq_true', Bool.or_eq_false_iff] at h2
      rcases hurl with hu | hu
      · rw [h2.1] at hu; cases hu
      · rw [h2.2] at hu; cases hu
    · rw [if_neg h2]
      have hurl : strStartsWith s.url "http://" = true ∨
          strStartsWith s.url "https://" = true := by
        have himp : strStartsWith s.url "http://" = false →
            strStartsWith s.url "https://" = true := by simpa using h2
        cases hb : strStartsWith s.url "http://"
        · exact Or.inr (himp hb)
        · exact Or.inl rfl
      by_cases h3 : s.expected_status_codes.isEmpty = true
      · rw [if_pos h3]
        refine iff_of_false (by simp) ?_
        rintro ⟨-, -, hne, -⟩
        exact hne (List.isEmpty_iff.mp h3)
      · rw [if_neg h3]
        have hne : s.expected_status_codes ≠ [] := by
          simpa [List.isEmpty_iff] using h3
        cases hf : s.expected_status_codes.find?
            (fun c => !(100 ≤ c && c ≤ 599)) with
        | some code =>
          refine iff_of_false (by simp) ?_
          rintro ⟨-, -, -, hcodes, -⟩
          have hmem := List.mem_of_find?_eq_some hf
          have hpred := List.find?_some hf
          have hok := hcodes code hmem
          simp only [Bool.not_eq_true', Bool.and_eq_false_iff,
            decide_eq_false_iff_not] at hpred
          rcases hpred with hp | hp
          · exact hp hok.1
          · exact hp hok.2
        | none =>
          dsimp only
          have hall : ∀ c ∈ s.expected_status_codes, 100 ≤ c ∧ c ≤ 599 := by
            intro c hc
            have hx := List.find?_eq_none.mp hf c hc
            simpa using hx
          by_cases h4 : (!valid_methods.contains s.method) = true
          · rw [if_pos h4]
            refine iff_of_false (by simp) ?_
            rintro ⟨-, -, -, -, hm, -⟩
            rw [show valid_methods.contains s.method = true from
              List.elem_iff.mpr hm] at h4
            cases h4
          · rw [if_neg h4]
            have hm : s.method ∈ valid_methods := by
              simp only [Bool.not_eq_true'] at h4
              exact List.elem_iff.mp (by simpa using h4)
            by_cases h5 : s.failure_threshold = 0
            · rw [if_pos h5]
              refine iff_of_false (by simp) ?_
              rintro ⟨-, -, -, -, -, hth, -⟩
              exact hth h5
            · rw [if_neg h5]
              cases hci : s.check_interval_seconds with
              | some interval =>
                dsimp only
                by_cases h6 : interval = 0
                · rw [if_pos h6]
                  refine iff_of_false (by simp) ?_
                  rintro ⟨-, -, -, -, -, -, hiv⟩
                  exact hiv interval rfl h6
                · rw [if_neg h6]
                  refine iff_of_true rfl ⟨hname, hurl, hne, hall, hm, h5, ?_⟩
                  intro i hi
                  injection hi with hii
                  subst hii
                  exact h6
              | none =>
                dsimp only
                refine iff_of_true rfl ⟨hname, hurl, hne, hall, hm, h5, ?_⟩
                intro i hi
                exact nomatch hi

/-- The service-list validation succeeds exactly when every service in the
list meets the per-service invariants. -/
theorem validateServices_ok_iff :
    ∀ l : List ServiceConfig,
      validateServices l = Except.ok () ↔ ∀ s ∈ l, serviceSpecOk s := by
  intro l
  induction l with
  | nil => simp [validateServices]
  | cons s rest ih =>
    rw [validateServices]
    cases hv : validateService s with
    | ok u =>
      cases u
      rw [ih]
      constructor
      · intro hrest
        intro x hx
        rcases List.mem_cons.mp hx with hx | hx
        · subst hx
          exact (validateService_ok_iff x).mp hv
        · exact hrest x hx
      · intro hall x hx
        exact hall x (List.mem_cons_of_mem s hx)
    | error e =>
      refine iff_of_false (by simp) ?_
      intro hall
      have := (validateService_ok_iff s).mpr (hall s (List.mem_cons_self s rest))
      rw [hv] at this
      cases this

/-- C5 (amended): the validator accepts a configuration exactly when it
meets every §3 invariant it checks — positive global intervals and
concurrency, whitelisted log level, the web-block bounds, a non-empty
service list, and for every service: a non-blank name, an
`http://`/`https://` URL, a non-empty expected-status-code set within
100–599, a whitelisted HTTP method, a positive failure threshold and a
positive interval override — but it does **not** check service-name
uniqueness. -/
theorem C5_validate_config_iff (config : Config) :
    validate_config config = Except.ok () ↔ configSpecOk config := by
  unfold validate_config configSpecOk
  by_cases h1 : config.global.check_interval_seconds = 0
  · rw [if_pos h1]
    exact iff_of_false (by simp) (fun h => h.1 h1)
  · rw [if_neg h1]
    by_cases h2 : config.global.request_timeout_seconds = 0
    · rw [if_pos h2]
      exact iff_of_false (by simp) (fun h => h.2.1 h2)
    · rw [if_neg h2]
      by_cases h3 : config.global.max_concurrent_checks = 0
      · rw [if_pos h3]
        exact iff_of_false (by simp) (fun h => h.2.2.1 h3)
      · rw [if_neg h3]
        by_cases h4 : (!valid_log_levels.contains config.global.log_level) = true
        · rw [if_pos h4]
          refine iff_of_false (by simp) (fun h => ?_)
          rw [show valid_log_levels.contains config.global.log_level = true from
            List.elem_iff.mpr h.2.2.2.1] at h4
          cases h4
        · rw [if_neg h4]
          have hlog : config.global.log_level ∈ valid_log_levels := by
            simp only [Bool.not_eq_true'] at h4
            exact List.elem_iff.mp (by simpa using h4)
          cases hw : config.global.web with
          | some w =>
            dsimp only
            cases hvw : validateWeb w with
            | error e =>
              refine iff_of_false (by simp) ?_
              intro h
              have := (validateWeb_ok_iff w).mpr (h.2.2.2.2.1 w rfl)
              rw [hvw] at this
              cases this
            | ok u =>
              cases u
              have hwok : webSpecOk w := (validateWeb_ok_iff w).mp hvw
              dsimp only
              by_cases h5 : config.services.isEmpty = true
              · rw [if_pos h5]
                exact iff_of_false (by simp)
                  (fun h => h.2.2.2.2.2.1 (List.isEmpty_iff.mp h5))
              · rw [if_neg h5]
                rw [validateServices_ok_iff]
                constructor
                · intro hall
                  refine ⟨h1, h2, h3, hlog, ?_,
                    by simpa [List.isEmpty_iff] using h5, hall⟩
                  intro w' hw'
                  cases hw'
                  exact hwok
                · exact fun h => h.2.2.2.2.2.2
          | none =>
            dsimp only
            by_cases h5 : config.services.isEmpty = true
            · rw [if_pos h5]
              exact iff_of_false (by simp)
                (fun h => h.2.2.2.2.2.1 (List.isEmpty_iff.mp h5))
            · rw [if_neg h5]
              rw [validateServices_ok_iff]
              constructor
              · intro hall
                refine ⟨h1, h2, h3, hlog, ?_,
                  by simpa [List.isEmpty_iff] using h5, hall⟩
                intro w' hw'
                exact nomatch hw'
              · exact fun h => h.2.2.2.2.2.2

/-- A configuration containing two services that share the name `"s"`
(differing in URL), otherwise meeting every checked invariant. -/
def dupNameConfig : Config :=
  { global := exampleGlobal,
    services := [exampleService, { exampleService with url := "https://h2" }] }

/-- C5 counterexample: the validator accepts a configuration in which two
services share the same name — the claim requires it to return an error for
every such configuration. -/
theorem C5_counterexample :
    validate_config dupNameConfig = Except.ok () ∧
    dupNameConfig.services.map ServiceConfig.name = ["s", "s"] :=
  ⟨rfl, rfl⟩

/-- A service found under name `n` carries that name (the diff maps are
keyed by `s.name`). -/
theorem servicesLookup_some_name :
    ∀ (l : List ServiceConfig) (n : String) (s : ServiceConfig),
      servicesLookup l n = some s → s.name = n := by
  intro l
  induction l with
  | nil => intro n s h; cases h
  | cons a rest ih =>
    intro n s h
    rw [servicesLookup] at h
    cases hr : servicesLookup rest n with
    | some r =>
      rw [hr] at h
      cases h
      exact ih n _ hr
    | none =>
      rw [hr] at h
      by_cases ha : a.name = n
      · rw [if_pos ha] at h
        cases h
        exact ha
      · rw [if_neg ha] at h
        cases h

/-- A name is absent from the service map exactly when no list element
carries it. -/
theorem servicesLookup_eq_none_iff :
    ∀ (l : List ServiceConfig) (n : String),
      servicesLookup l n = none ↔ n ∉ l.map ServiceConfig.name := by
  intro l
  induction l with
  | nil => intro n; simp [servicesLookup]
  | cons a rest ih =>
    intro n
    rw [servicesLookup]
    cases hr : servicesLookup rest n with
    | some r =>
      simp only [List.map_cons, List.mem_cons]
      constructor
      · intro h; cases h
      · intro h
        exact absurd ((ih n).mpr (fun hm => h (Or.inr hm))) (by simp [hr])
    | none =>
      simp only [List.map_cons, List.mem_cons]
      by_cases ha : a.name = n
      · rw [if_pos ha]
        simp [ha]
      · rw [if_neg ha]
        have hmem := (ih n).mp hr
        constructor
        · intro _ hcon
          rcases hcon with hcon | hcon
          · exact ha hcon.symm
          · exact hmem hcon
        · intro _
          trivial

/-- `hmBeq` is reflexive. -/
theorem hmBeq_refl (h : List (String × String)) : hmBeq h h = true := by
  simp [hmBeq, List.all_eq_true]

/-- The source's value equality on services is reflexive. -/
theorem svcBeq_refl (a : ServiceConfig) : svcBeq a a = true := by
  simp [svcBeq, hmBeq_refl]

/-- A diff entry that does not concern name `n` leaves position `n` of the
service map unchanged. -/
theorem applyDiff_not_touched (m : String → Option ServiceConfig)
    (d : ConfigDiff) (n : String) (h : touchesName d n = false) :
    applyDiff m d n = m n := by
  cases d with
  | ServiceAdded s =>
    simp only [touchesName, beq_eq_false_iff_ne, ne_eq] at h
    simp only [applyDiff]
    exact if_neg (fun hq => h hq.symm)
  | ServiceRemoved nm =>
    simp only [touchesName, beq_eq_false_iff_ne, ne_eq] at h
    simp only [applyDiff]
    exact if_neg (fun hq => h hq.symm)
  | ServiceModified o s =>
    simp only [touchesName, beq_eq_false_iff_ne, ne_eq] at h
    simp only [applyDiff]
    exact if_neg (fun hq => h hq.symm)
  | GlobalConfigModified => rfl

/-- A diff sequence with no entry concerning `n` leaves position `n`
unchanged. -/
theorem applyDiffs_not_touched (D : List ConfigDiff) :
    ∀ (m : String → Option ServiceConfig) (n : String),
      (∀ d ∈ D, touchesName d n = false) → applyDiffs m D n = m n := by
  induction D with
  | nil => intro m n _; rfl
  | cons d D ih =>
    intro m n h
    rw [applyDiffs, List.foldl_cons]
    rw [show (List.foldl applyDiff (applyDiff m d) D) = applyDiffs (applyDiff m d) D from rfl]
    rw [ih (applyDiff m d) n (fun d' hd' => h d' (List.mem_cons_of_mem d hd'))]
    exact applyDiff_not_touched m d n (h d (List.mem_cons_self d D))

/-- `applyDiff` reads the underlying map only at the queried position. -/
theorem applyDiff_congr_at (m m' : String → Option ServiceConfig)
    (d : ConfigDiff) (n : String) (h : m n = m' n) :
    applyDiff m d n = applyDiff m' d n := by
  cases d with
  | ServiceAdded s => simp only [applyDiff]; split <;> [rfl; exact h]
  | ServiceRemoved nm => simp only [applyDiff]; split <;> [rfl; exact h]
  | ServiceModified o s => simp only [applyDiff]; split <;> [rfl; exact h]
  | GlobalConfigModified => exact h

/-- Applying the diffs generated from a `Nodup` key list, where the diff of
each key concerns only that key: position `n` is transformed by `n`'s own
diff (if `n` is a key and has one) and is otherwise untouched. -/
theorem applyDiffs_filterMap_nodup (f : String → Option ConfigDiff) :
    ∀ (L : List String), L.Nodup →
      (∀ k ∈ L, ∀ d, f k = some d → ∀ j, touchesName d j = true → j = k) →
      ∀ (m : String → Option ServiceConfig) (n : String),
        applyDiffs m (L.filterMap f) n =
          if n ∈ L then
            (match f n with
             | some d => applyDiff m d n
             | none => m n)
          else m n := by
  intro L
  induction L with
  | nil => intro _ _ m n; simp [applyDiffs]
  | cons k L ih =>
    intro hnodup hkey m n
    have hnd := List.nodup_cons.mp hnodup
    rw [List.filterMap_cons]
    by_cases hnk : n = k
    · subst hnk
      cases hf : f n with
      | none =>
        rw [ih hnd.2 (fun k' hk' => hkey k' (List.mem_cons_of_mem _ hk')) m n]
        simp [hf, hnd.1]
      | some d =>
        rw [show applyDiffs m (d :: L.filterMap f) n
            = applyDiffs (applyDiff m d) (L.filterMap f) n from rfl]
        rw [ih hnd.2 (fun k' hk' => hkey k' (List.mem_cons_of_mem _ hk'))
          (applyDiff m d) n]
        simp [hf, hnd.1]
    · have hstep : ∀ (m₀ : String → Option ServiceConfig),
          applyDiffs m₀ (L.filterMap f) n =
            if n ∈ L then
              (match f n with
               | some d => applyDiff m₀ d n
               | none => m₀ n)
            else m₀ n :=
        fun m₀ => ih hnd.2 (fun k' hk' => hkey k' (List.mem_cons_of_mem _ hk')) m₀ n
      cases hf : f k with
      | none =>
        rw [hstep m]
        simp [List.mem_cons, hnk]
      | some d =>
        have hdnt : touchesName d n = false := by
          by_contra hcon
          simp only [Bool.not_eq_false] at hcon
          exact hnk (hkey k (List.mem_cons_self k L) d hf n hcon)
        have hmn : applyDiff m d n = m n := applyDiff_not_touched m d n hdnt
        rw [show applyDiffs m (d :: L.filterMap f) n
            = applyDiffs (applyDiff m d) (L.filterMap f) n from rfl]
        rw [hstep (applyDiff m d)]
        by_cases hnL : n ∈ L
        · simp only [hnL, if_true, List.mem_cons, hnk, false_or]
          cases hfn : f n with
          | some d' => exact applyDiff_congr_at _ _ d' n hmn
          | none => exact hmn
        · simp only [hnL, if_false, List.mem_cons, hnk, false_or]
          exact hmn

/-- Characterization: the new-side key function emits `ServiceAdded a` for
`n` iff `n` resolves to `a` in the new map and is absent from the old map. -/
theorem diffKeyNew_eq_added_iff (oc nc : Config) (n : String)
    (a : ServiceConfig) :
    diffKeyNew oc nc n = some (ConfigDiff.ServiceAdded a) ↔
      servicesLookup nc.services n = some a ∧
      servicesLookup oc.services n = none := by
  unfold diffKeyNew
  cases h1 : servicesLookup nc.services n with
  | none => simp
  | some ns =>
    cases h2 : servicesLookup oc.services n with
    | none => dsimp only; simp
    | some os =>
      dsimp only
      constructor
      · intro h
        split at h <;> cases h
      · rintro ⟨-, h⟩
        cases h

/-- Characterization: the new-side key function emits
`ServiceModified o a` for `n` iff `n` resolves to `o` in the old map and to
`a` in the new map, with unequal values. -/
theorem diffKeyNew_eq_modified_iff (oc nc : Config) (n : String)
    (o a : ServiceConfig) :
    diffKeyNew oc nc n = some (ConfigDiff.ServiceModified o a) ↔
      servicesLookup nc.services n = some a ∧
      servicesLookup oc.services n = some o ∧
      svcBeq o a = false := by
  unfold diffKeyNew
  cases h1 : servicesLookup nc.services n with
  | none => simp
  | some ns =>
    cases h2 : servicesLookup oc.services n with
    | none =>
      dsimp only
      constructor
      · intro h; cases h
      · rintro ⟨-, h, -⟩; cases h
    | some os =>
      dsimp only
      by_cases hb : svcBeq os ns = true
      · rw [if_pos hb]
        constructor
        · intro h; cases h
        · rintro ⟨ha, ho, hne⟩
          cases ha; cases ho
          rw [hb] at hne
          cases hne
      · rw [if_neg hb]
        constructor
        · intro h
          cases h
          exact ⟨rfl, rfl, Bool.not_eq_true _ ▸ by simpa using hb⟩
        · rintro ⟨ha, ho, -⟩
          cases ha; cases ho
          rfl

/-- The new-side key function emits only added or modified entries. -/
theorem diffKeyNew_cases (oc nc : Config) (n : String) (d : ConfigDiff)
    (h : diffKeyNew oc nc n = some d) :
    (∃ a, d = ConfigDiff.ServiceAdded a) ∨
    (∃ o a, d = ConfigDiff.ServiceModified o a) := by
  unfold diffKeyNew at h
  cases h1 : servicesLookup nc.services n with
  | none => rw [h1] at h; cases h
  | some ns =>
    rw [h1] at h
    cases h2 : servicesLookup oc.services n with
    | none =>
      rw [h2] at h
      dsimp only at h
      cases h
      exact Or.inl ⟨ns, rfl⟩
    | some os =>
      rw [h2] at h
      dsimp only at h
      split at h
      · cases h
      · cases h
        exact Or.inr ⟨os, ns, rfl⟩

/-- Characterization of the old-side key function: it emits exactly
`ServiceRemoved n`, and only when `n` is absent from the new map. -/
theorem diffKeyOld_eq_some_iff (oc nc : Config) (n : String)
    (d : ConfigDiff) :
    diffKeyOld oc nc n = some d ↔
      d = ConfigDiff.ServiceRemoved n ∧
      servicesLookup nc.services n = none := by
  unfold diffKeyOld
  by_cases hn : (servicesLookup nc.services n).isNone = true
  · rw [if_pos hn]
    simp only [Option.isNone_iff_eq_none] at hn
    constructor
    · intro h; cases h; exact ⟨rfl, hn⟩
    · rintro ⟨h, -⟩; rw [h]
  · rw [if_neg hn]
    simp only [Option.isNone_iff_eq_none] at hn
    constructor
    · intro h; cases h
    · rintro ⟨-, h⟩; exact absurd h hn

/-- Membership of the global entry in the diff. -/
theorem diff_global_mem_iff (oc nc : Config) :
    ConfigDiff.GlobalConfigModified ∈ calculate_config_diff oc nc ↔
      globalBeq oc.global nc.global = false := by
  unfold calculate_config_diff
  simp only [List.mem_append, List.mem_filterMap]
  constructor
  · rintro ((hg | ⟨n, -, hf⟩) | ⟨n, -, hf⟩)
    · cases hbe : globalBeq oc.global nc.global
      · rfl
      · rw [hbe] at hg
        simp at hg
    · rcases diffKeyNew_cases oc nc n _ hf with ⟨a, ha⟩ | ⟨o, a, ha⟩ <;> cases ha
    · rcases (diffKeyOld_eq_some_iff oc nc n _).mp hf with ⟨ha, -⟩
      cases ha
  · intro h
    refine Or.inl (Or.inl ?_)
    rw [if_neg (by simp [h])]
    exact List.mem_singleton.mpr rfl

/-- Membership of `ServiceAdded` entries in the diff. -/
theorem diff_added_mem_iff (oc nc : Config) (a : ServiceConfig) :
    ConfigDiff.ServiceAdded a ∈ calculate_config_diff oc nc ↔
      servicesLookup nc.services a.name = some a ∧
      servicesLookup oc.services a.name = none := by
  unfold calculate_config_diff
  simp only [List.mem_append, List.mem_filterMap]
  constructor
  · rintro ((hg | ⟨n, -, hf⟩) | ⟨n, -, hf⟩)
    · exact absurd hg (by split <;> simp)
    · rcases (diffKeyNew_eq_added_iff oc nc n a).mp hf with ⟨h1, h2⟩
      have := servicesLookup_some_name nc.services n a h1
      subst this
      exact ⟨h1, h2⟩
    · rcases (diffKeyOld_eq_some_iff oc nc n _).mp hf with ⟨ha, -⟩
      cases ha
  · rintro ⟨h1, h2⟩
    refine Or.inl (Or.inr ⟨a.name, ?_, (diffKeyNew_eq_added_iff oc nc a.name a).mpr ⟨h1, h2⟩⟩)
    refine List.mem_dedup.mpr ?_
    by_contra hmem
    rw [(servicesLookup_eq_none_iff nc.services a.name).mpr hmem] at h1
    cases h1

/-- Membership of `ServiceRemoved` entries in the diff. -/
theorem diff_removed_mem_iff (oc nc : Config) (n : String) :
    ConfigDiff.ServiceRemoved n ∈ calculate_config_diff oc nc ↔
      (servicesLookup oc.services n).isSome = true ∧
      servicesLookup nc.services n = none := by
  unfold calculate_config_diff
  simp only [List.mem_append, List.mem_filterMap]
  constructor
  · rintro ((hg | ⟨m, -, hf⟩) | ⟨m, hm, hf⟩)
    · exact absurd hg (by split <;> simp)
    · rcases diffKeyNew_cases oc nc m _ hf with ⟨a, ha⟩ | ⟨o, a, ha⟩ <;> cases ha
    · rcases (diffKeyOld_eq_some_iff oc nc m _).mp hf with ⟨ha, hnone⟩
      cases ha
      refine ⟨?_, hnone⟩
      have hmem := List.mem_dedup.mp hm
      rw [Option.isSome_iff_ne_none]
      intro hcon
      exact (servicesLookup_eq_none_iff oc.services n).mp hcon hmem
  · rintro ⟨h1, h2⟩
    refine Or.inr ⟨n, ?_, (diffKeyOld_eq_some_iff oc nc n _).mpr ⟨rfl, h2⟩⟩
    refine List.mem_dedup.mpr ?_
    by_contra hmem
    rw [(servicesLookup_eq_none_iff oc.services n).mpr hmem] at h1
    cases h1

/-- Membership of `ServiceModified` entries in the diff. -/
theorem diff_modified_mem_iff (oc nc : Config) (o a : ServiceConfig) :
    ConfigDiff.ServiceModified o a ∈ calculate_config_diff oc nc ↔
      servicesLookup oc.services a.name = some o ∧
      servicesLookup nc.services a.name = some a ∧
      svcBeq o a = false := by
  unfold calculate_config_diff
  simp only [List.mem_append, List.mem_filterMap]
  constructor
  · rintro ((hg | ⟨n, -, hf⟩) | ⟨n, -, hf⟩)
    · exact absurd hg (by split <;> simp)
    · rcases (diffKeyNew_eq_modified_iff oc nc n o a).mp hf with ⟨h1, h2, h3⟩
      have := servicesLookup_some_name nc.services n a h1
      subst this
      exact ⟨h2, h1, h3⟩
    · rcases (diffKeyOld_eq_some_iff oc nc n _).mp hf with ⟨ha, -⟩
      cases ha
  · rintro ⟨h1, h2, h3⟩
    refine Or.inl (Or.inr ⟨a.name, ?_,
      (diffKeyNew_eq_modified_iff oc nc a.name o a).mpr ⟨h2, h1, h3⟩⟩)
    refine List.mem_dedup.mpr ?_
    by_contra hmem
    rw [(servicesLookup_eq_none_iff nc.services a.name).mpr hmem] at h2
    cases h2

/-- `applyDiffs` distributes over list append. -/
theorem applyDiffs_append (m : String → Option ServiceConfig)
    (D1 D2 : List ConfigDiff) :
    applyDiffs m (D1 ++ D2) = applyDiffs (applyDiffs m D1) D2 := by
  simp [applyDiffs, List.foldl_append]

/-- The added/modified entries of the diff concern only their own key. -/
theorem diffKeyNew_touches_only_key (oc nc : Config) :
    ∀ k ∈ (nc.services.map ServiceConfig.name).dedup,
      ∀ d, diffKeyNew oc nc k = some d →
      ∀ j, touchesName d j = true → j = k := by
  intro k _ d hd j hj
  rcases diffKeyNew_cases oc nc k d hd with ⟨a, ha⟩ | ⟨o, a, ha⟩
  · subst ha
    have hl := (diffKeyNew_eq_added_iff oc nc k a).mp hd
    have hn := servicesLookup_some_name nc.services k a hl.1
    simp only [touchesName, beq_iff_eq] at hj
    exact hj ▸ hn
  · subst ha
    have hl := (diffKeyNew_eq_modified_iff oc nc k o a).mp hd
    have hn := servicesLookup_some_name nc.services k a hl.1
    simp only [touchesName, beq_iff_eq] at hj
    exact hj ▸ hn

/-- The removal entries of the diff concern only their own key. -/
theorem diffKeyOld_touches_only_key (oc nc : Config) :
    ∀ k ∈ (oc.services.map ServiceConfig.name).dedup,
      ∀ d, diffKeyOld oc nc k = some d →
      ∀ j, touchesName d j = true → j = k := by
  intro k _ d hd j hj
  rcases (diffKeyOld_eq_some_iff oc nc k d).mp hd with ⟨hform, -⟩
  subst hform
  simp only [touchesName, beq_iff_eq] at hj
  exact hj.symm

/-- Applying the computed diff to the old service map recreates the new
service map, pointwise up to the source's value equality. -/
theorem diff_apply_recreates (oc nc : Config) (n : String) :
    optionSvcBeq
      (applyDiffs (fun k => servicesLookup oc.services k)
        (calculate_config_diff oc nc) n)
      (servicesLookup nc.services n) = true := by
  have hAM := applyDiffs_filterMap_nodup (diffKeyNew oc nc)
    (nc.services.map ServiceConfig.name).dedup (List.nodup_dedup _)
    (diffKeyNew_touches_only_key oc nc)
    (fun k => servicesLookup oc.services k) n
  have hR := applyDiffs_filterMap_nodup (diffKeyOld oc nc)
    (oc.services.map ServiceConfig.name).dedup (List.nodup_dedup _)
    (diffKeyOld_touches_only_key oc nc)
    (applyDiffs (fun k => servicesLookup oc.services k)
      ((nc.services.map ServiceConfig.name).dedup.filterMap (diffKeyNew oc nc)))
    n
  unfold calculate_config_diff
  rw [applyDiffs_append, applyDiffs_append]
  rw [show applyDiffs (fun k => servicesLookup oc.services k)
      (if globalBeq oc.global nc.global then []
       else [ConfigDiff.GlobalConfigModified])
      = (fun k => servicesLookup oc.services k) by split <;> rfl]
  cases hvN : servicesLookup nc.services n with
  | some a =>
    have hmemN : n ∈ (nc.services.map ServiceConfig.name).dedup := by
      refine List.mem_dedup.mpr ?_
      by_contra hm
      rw [(servicesLookup_eq_none_iff nc.services n).mpr hm] at hvN
      cases hvN
    have hkon : diffKeyOld oc nc n = none := by
      unfold diffKeyOld
      rw [if_neg (by simp [hvN])]
    rw [hR]
    have hRn :
        (if n ∈ (oc.services.map ServiceConfig.name).dedup then
          (match diffKeyOld oc nc n with
           | some d =>
             applyDiff (applyDiffs (fun k => servicesLookup oc.services k)
               ((nc.services.map ServiceConfig.name).dedup.filterMap
                 (diffKeyNew oc nc))) d n
           | none =>
             applyDiffs (fun k => servicesLookup oc.services k)
               ((nc.services.map ServiceConfig.name).dedup.filterMap
                 (diffKeyNew oc nc)) n)
         else
           applyDiffs (fun k => servicesLookup oc.services k)
             ((nc.services.map ServiceConfig.name).dedup.filterMap
               (diffKeyNew oc nc)) n)
        = applyDiffs (fun k => servicesLookup oc.services k)
            ((nc.services.map ServiceConfig.name).dedup.filterMap
              (diffKeyNew oc nc)) n := by
      rw [hkon]
      split <;> rfl
    rw [hRn, hAM, if_pos hmemN]
    cases hvO : servicesLookup oc.services n with
    | none =>
      rw [(diffKeyNew_eq_added_iff oc nc n a).mpr ⟨hvN, hvO⟩]
      have hn := servicesLookup_some_name nc.services n a hvN
      simp only [applyDiff]
      rw [if_pos hn.symm]
      simp [optionSvcBeq, svcBeq_refl]
    | some o =>
      by_cases hb : svcBeq o a = true
      · have hkn : diffKeyNew oc nc n = none := by
          unfold diffKeyNew
          rw [hvN, hvO]
          dsimp only
          rw [if_pos hb]
        rw [hkn]
        dsimp only
        simpa [optionSvcBeq] using hb
      · rw [(diffKeyNew_eq_modified_iff oc nc n o a).mpr
          ⟨hvN, hvO, by simpa using hb⟩]
        have hn := servicesLookup_some_name nc.services n a hvN
        simp only [applyDiff]
        rw [if_pos hn.symm]
        simp [optionSvcBeq, svcBeq_refl]
  | none =>
    have hnotN : n ∉ (nc.services.map ServiceConfig.name).dedup := by
      intro hmem
      exact (servicesLookup_eq_none_iff nc.services n).mp hvN
        (List.mem_dedup.mp hmem)
    have hAMn : applyDiffs (fun k => servicesLookup oc.services k)
        ((nc.services.map ServiceConfig.name).dedup.filterMap
          (diffKeyNew oc nc)) n
        = servicesLookup oc.services n := by
      rw [hAM, if_neg hnotN]
    cases hvO : servicesLookup oc.services n with
    | some o =>
      have hmemO : n ∈ (oc.services.map ServiceConfig.name).dedup := by
        refine List.mem_dedup.mpr ?_
        by_contra hm
        rw [(servicesLookup_eq_none_iff oc.services n).mpr hm] at hvO
        cases hvO
      have hko : diffKeyOld oc nc n = some (ConfigDiff.ServiceRemoved n) := by
        unfold diffKeyOld
        rw [if_pos (by simp [hvN])]
      rw [hR, if_pos hmemO, hko]
      simp only [applyDiff]
      simp [optionSvcBeq]
    | none =>
      have hnotO : n ∉ (oc.services.map ServiceConfig.name).dedup := by
        intro hmem
        exact (servicesLookup_eq_none_iff oc.services n).mp hvO
          (List.mem_dedup.mp hmem)
      rw [hR, if_neg hnotO, hAMn, hvO]
      rfl

/-- C6: the computed diff contains `GlobalConfigModified` iff the global
blocks differ by the source's value equality; `ServiceAdded` entries exactly
for the services of the new map absent from the old; `ServiceRemoved`
entries exactly for the names of the old map absent from the new;
`ServiceModified` entries exactly for the names in both maps whose values
differ; and applying the diff sequence to the old service map recreates the
new service map (pointwise, up to value equality), the global block being
replaced exactly when flagged. -/
theorem C6_diff_correct (oc nc : Config) :
    (ConfigDiff.GlobalConfigModified ∈ calculate_config_diff oc nc ↔
      globalBeq oc.global nc.global = false) ∧
    (∀ a : ServiceConfig,
      ConfigDiff.ServiceAdded a ∈ calculate_config_diff oc nc ↔
        servicesLookup nc.services a.name = some a ∧
        servicesLookup oc.services a.name = none) ∧
    (∀ n : String,
      ConfigDiff.ServiceRemoved n ∈ calculate_config_diff oc nc ↔
        (servicesLookup oc.services n).isSome = true ∧
        servicesLookup nc.services n = none) ∧
    (∀ o a : ServiceConfig,
      ConfigDiff.ServiceModified o a ∈ calculate_config_diff oc nc ↔
        servicesLookup oc.services a.name = some o ∧
        servicesLookup nc.services a.name = some a ∧
        svcBeq o a = false) ∧
    (∀ n : String,
      optionSvcBeq
        (applyDiffs (fun k => servicesLookup oc.services k)
          (calculate_config_diff oc nc) n)
        (servicesLookup nc.services n) = true) :=
  ⟨diff_global_mem_iff oc nc, diff_added_mem_iff oc nc,
    diff_removed_mem_iff oc nc, diff_modified_mem_iff oc nc,
    diff_apply_recreates oc nc⟩

end ServiceVitals
